import Mathlib

/-!
# MealieMate plugin lifecycle and MQTT control plane: a shallow embedding

This file embeds the plugin-lifecycle subsystem of the MealieMate repository
(`core/plugin_manager.py` and `core/message_handler.py`) into Lean 4 and
proves/refutes the specification claims about it.

Modelling conventions:
* Python dicts become association lists (`List (String × α)`); insertion
  (`setKey`) replaces the first binding of a key in place, deletion (`delKey`)
  removes the key, lookup takes the first binding.  Dict key order is
  insertion order, as in CPython.
* The asyncio world is single-threaded and cooperative: state mutations
  between two `await`s are atomic.  Each async operation is embedded as a
  function that returns the final manager state, its return value, the list
  of side effects it emitted (MQTT publications and log lines), and the list
  of manager states observable at each of its suspension points (`await`s),
  in program order.  `logger.debug` calls are not modelled as observable
  effects; `logger.info/warning/error` are.
* The MQTT service's publish methods are modelled as effect emission only:
  per the repository's design they catch transport failures internally and
  return booleans rather than raising.  Likewise `Container.inject` is
  modelled as total instance construction (its missing-dependency error is a
  wiring-time configuration error, and in `start_plugin` it is caught by the
  surrounding `try`).
* Python exceptions that depend on message data are modelled explicitly:
  `topic.split("/")[-2]` can raise `IndexError`, and `int(...)`/`float(...)`
  can raise `ValueError` (caught inside `_handle_number_update`).
* Python `float` values are kept symbolically as a scaled decimal
  (mantissa/exponent) — no claim compares float arithmetic.  The grammar of
  `int(...)`/`float(...)` is modelled for ordinary decimal literals with
  optional surrounding ASCII whitespace and sign (underscore separators and
  `inf`/`nan` are not modelled; no claim depends on them).
-/

namespace MealieMate

/-- A value storable in a plugin's persisted configuration: Python ints,
floats (kept as a scaled decimal `mantissa * 10 ^ exp`), strings, booleans. -/
inductive Val where
  | vInt (n : Int)
  | vFloat (mantissa : Int) (exp : Int)
  | vStr (s : String)
  | vBool (b : Bool)
deriving DecidableEq, Repr

/-- Replace the first binding of `k` in an association list, else append —
the observable behaviour of a Python dict assignment `m[k] = v`. -/
def setKey (m : List (String × α)) (k : String) (v : α) : List (String × α) :=
  match m with
  | [] => [(k, v)]
  | (k', v') :: rest => if k' = k then (k, v) :: rest else (k', v') :: setKey rest k v

/-- Remove the binding of `k` — the observable behaviour of `m.pop(k, None)`. -/
def delKey (m : List (String × α)) (k : String) : List (String × α) :=
  match m with
  | [] => []
  | (k', v) :: rest => if k' = k then delKey rest k else (k', v) :: delKey rest k

/-- Remove a key from a plain key list — `m.pop(k)` seen on the key set. -/
def delItem (l : List String) (k : String) : List String :=
  match l with
  | [] => []
  | t :: rest => if t = k then delItem rest k else t :: delItem rest k

/-- First binding of `k`, as Python `m.get(k)`. -/
def getKey (m : List (String × α)) (k : String) : Option α :=
  match m with
  | [] => none
  | (k', v) :: rest => if k' = k then some v else getKey rest k

/-- Key membership, as Python `k in m`. -/
def hasKey (m : List (String × α)) (k : String) : Bool :=
  match m with
  | [] => false
  | (k', _) :: rest => if k' = k then true else hasKey rest k

/-- A live plugin instance: its plugin id plus its mutable attribute map
(one `_<entity_id>` attribute per configurable entity, per the repository's
convention). -/
structure Inst where
  id : String
  attrs : List (String × Val)
deriving DecidableEq, Repr

/-- Python `hasattr(plugin, a)`. -/
def Inst.hasattr (i : Inst) (a : String) : Bool :=
  hasKey i.attrs a

/-- Python `setattr(plugin, a, v)` (used only on existing attributes in the
source, but total here, as in Python). -/
def Inst.setattr (i : Inst) (a : String) (v : Val) : Inst :=
  { i with attrs := setKey i.attrs a v }

/-- A declared number entity, as returned in `get_mqtt_entities()["numbers"]`:
its `id` field and whether its `type` field equals `"float"`. -/
structure NumberEntity where
  id : String
  isFloat : Bool
deriving DecidableEq, Repr

/-- A declared auxiliary switch entity, as returned in
`get_mqtt_entities()["switches"]`: its `id` field. -/
structure SwitchEntity where
  id : String
deriving DecidableEq, Repr

/-- A plugin class as the manager and dispatcher see it: its stable id, the
attributes a freshly constructed (dependency-injected) instance carries, its
declared control-surface entities, and its `reset_sensors` declaration. -/
structure PluginCls where
  pid : String
  initAttrs : List (String × Val)
  numbers : List (String × NumberEntity)
  switches : List (String × SwitchEntity)
  hasProgressSensor : Bool
  resetSensors : List String
deriving DecidableEq, Repr

/-- `Container.inject`: constructs a fresh instance of the class with its
dependencies bound.  Dependencies are not configuration attributes, so the
fresh instance is determined by the class. -/
def inject (cls : PluginCls) : Inst :=
  { id := cls.pid, attrs := cls.initAttrs }

/-- The plugin registry: classes in registration order
(`get_all_plugins()` iterates in insertion order). -/
def Registry := List PluginCls

/-- `PluginRegistry.get_plugin`. -/
def getPlugin (reg : Registry) (pid : String) : Option PluginCls :=
  match reg with
  | [] => none
  | c :: rest => if c.pid = pid then some c else getPlugin rest pid

/-- The mutable state owned by `PluginManager`: the running-task map (keys
only; the task handle itself is the supervised `_execute_plugin` coroutine),
the running-instance map, and the persisted per-plugin configuration map. -/
structure MState where
  running_tasks : List String
  running_instances : List (String × Inst)
  plugin_configs : List (String × List (String × Val))
deriving DecidableEq, Repr

/-- The empty manager state (a freshly constructed `PluginManager`). -/
def MState.empty : MState :=
  { running_tasks := [], running_instances := [], plugin_configs := [] }

/-- Observable side effects: MQTT-service publications and log lines. -/
inductive Eff where
  | mqttInfo (pid msg cat : String)
  | mqttError (pid msg : String)
  | mqttWarning (pid msg : String)
  | mqttSuccess (pid msg : String)
  | setSwitchState (entity state : String)
  | updateProgress (pid sensor : String) (pct : Nat) (activity : String)
  | resetSensor (pid sensor : String)
  | logInfo (msg : String)
  | logWarning (msg : String)
  | logError (msg : String)
deriving DecidableEq, Repr

/-- Result of one manager operation: the manager states observable at each of
its suspension points in program order (including suspension points of a
cancelled task that runs during an `await` of the operation), the final
state, the boolean return value, the effects emitted, and how many plugin
instances were constructed (`Container.inject` calls). -/
structure OpResult where
  states : List MState
  final : MState
  ret : Bool
  effs : List Eff
  constructed : Nat
deriving DecidableEq, Repr

/-- `PluginManager.apply_config_to_plugin`: replay every stored
`(attribute, value)` pair for `plugin.id` onto the instance; attributes the
instance does not have are warned about and skipped. -/
def apply_config_to_plugin (cfgs : List (String × List (String × Val)))
    (p : Inst) : Inst :=
  match getKey cfgs p.id with
  | none => p
  | some pairs =>
      pairs.foldl (fun inst av =>
        if inst.hasattr av.1 then inst.setattr av.1 av.2 else inst) p

/-- `PluginManager.store_plugin_config`: write into the persisted config map;
if the plugin is currently running, also immediately mutate the live
instance's attribute (when it exists). -/
def store_plugin_config (s : MState) (pid attr : String) (v : Val) : MState :=
  let cfgs0 := if hasKey s.plugin_configs pid then s.plugin_configs
               else setKey s.plugin_configs pid []
  let entry := (getKey cfgs0 pid).getD []
  let cfgs := setKey cfgs0 pid (setKey entry attr v)
  let insts :=
    match getKey s.running_instances pid with
    | none => s.running_instances
    | some p =>
        if p.hasattr attr then setKey s.running_instances pid (p.setattr attr v)
        else s.running_instances
  { s with plugin_configs := cfgs, running_instances := insts }

/-- `PluginManager.is_plugin_running`: `plugin_id in self._running_tasks`. -/
def is_plugin_running (s : MState) (pid : String) : Bool :=
  s.running_tasks.contains pid

/-- `PluginManager.get_running_plugin_instance`. -/
def get_running_plugin_instance (s : MState) (pid : String) : Option Inst :=
  getKey s.running_instances pid

/-- The effects of `PluginManager._reset_plugin_sensors` (one awaited
`reset_sensor` publication per declared sensor id), and its suspension
count. -/
def resetSensorEffs (p : Inst) (cls : PluginCls) : List Eff :=
  cls.resetSensors.map (fun sid => Eff.resetSensor p.id sid)

/-- `PluginManager.start_plugin`.  Suspension points: the initial
`info` publication, each `reset_sensor` publication, and the final
`set_switch_state` publication; the two map insertions between them are one
atomic block. -/
def start_plugin (reg : Registry) (s : MState) (pid : String) : OpResult :=
  if s.running_tasks.contains pid then
    { states := [s], final := s, ret := false
      effs := [Eff.mqttInfo pid "Plugin is already running" "skip"]
      constructed := 0 }
  else
    match getPlugin reg pid with
    | none =>
        { states := [s, s], final := s, ret := false
          effs := [Eff.mqttInfo pid "Starting plugin" "start",
                   Eff.logError ("Plugin " ++ pid ++ " not found in registry"),
                   Eff.mqttError pid ("Plugin " ++ pid ++ " not found")]
          constructed := 0 }
    | some cls =>
        let plugin := apply_config_to_plugin s.plugin_configs (inject cls)
        let s1 : MState :=
          { s with running_instances := setKey s.running_instances pid plugin,
                   running_tasks :=
                     if s.running_tasks.contains pid then s.running_tasks
                     else s.running_tasks ++ [pid] }
        { states := [s] ++ cls.resetSensors.map (fun _ => s) ++ [s1]
          final := s1, ret := true
          effs := [Eff.mqttInfo pid "Starting plugin" "start"]
                    ++ resetSensorEffs (inject cls) cls
                    ++ [Eff.setSwitchState pid "ON"]
          constructed := 1 }

/-- The outcome of awaiting `plugin.execute()` inside the supervised wrapper:
normal return, `asyncio.CancelledError`, or any other exception (carrying
`str(e)`). -/
inductive ExecOutcome where
  | success
  | cancelled
  | error (msg : String)
deriving DecidableEq, Repr

/-- `PluginManager._execute_plugin`, the supervised execution wrapper, from
the manager state `s` current when `plugin.execute()` finishes with the given
outcome.  All publications happen before the `finally` block, so every
suspension point observes `s`; the `finally` block atomically pops the plugin
from both running maps.  (The error report's source-location prefix is
abstracted to the `Error:` form of the no-traceback branch.) -/
def execute_plugin (s : MState) (pid : String) (outcome : ExecOutcome) : OpResult :=
  let cleanup : MState :=
    { s with running_tasks := delItem s.running_tasks pid,
             running_instances := delKey s.running_instances pid }
  match outcome with
  | .success =>
      { states := [s, s], final := cleanup, ret := true
        effs := [Eff.mqttSuccess pid "Plugin completed successfully",
                 Eff.setSwitchState pid "OFF"]
        constructed := 0 }
  | .cancelled =>
      { states := [s, s], final := cleanup, ret := true
        effs := [Eff.mqttInfo pid "Plugin stopped manually" "stop",
                 Eff.setSwitchState pid "OFF"]
        constructed := 0 }
  | .error msg =>
      { states := [s, s], final := cleanup, ret := true
        effs := [Eff.logError ("Error in plugin " ++ pid ++ ": " ++ msg),
                 Eff.mqttError pid ("Error: " ++ msg),
                 Eff.setSwitchState pid "OFF"]
        constructed := 0 }

/-- `PluginManager.stop_plugin`.  `coop` says whether the cancelled task
reaches its cancellation handler within the one-second `asyncio.wait_for`
window: if it does, the task's own suspension points (its `info` and
`set_switch_state` publications, then its `finally` cleanup) run during the
`await`; if not, `wait_for` times out and the task still lingers.  Either
way `stop_plugin` pops the task handle before the wait and pops the instance
(if still present) before returning. -/
def stop_plugin (reg : Registry) (s : MState) (pid : String) (coop : Bool) :
    OpResult :=
  if ¬ s.running_tasks.contains pid then
    { states := [s], final := s, ret := false
      effs := [Eff.mqttInfo pid "Plugin is not running" "skip"]
      constructed := 0 }
  else
    -- atomic: task = running_tasks.pop(pid); task.cancel()
    let s1 : MState := { s with running_tasks := delItem s.running_tasks pid }
    -- during `await asyncio.wait_for(task, timeout=1)` the cancelled task may
    -- run its CancelledError handler and `finally` cleanup
    let s2 : MState := { s1 with running_instances := delKey s1.running_instances pid }
    let taskStates : List MState := if coop then [s1, s1] else []
    let taskEffs : List Eff :=
      if coop then [Eff.mqttInfo pid "Plugin stopped manually" "stop",
                    Eff.setSwitchState pid "OFF"]
      else []
    let afterWait : MState := if coop then s2 else s1
    -- plugin_cls = registry.get_plugin(pid); fresh transient instance
    let tail :=
      match getPlugin reg pid with
      | none => ([], [], 0)
      | some cls =>
          let p := inject cls
          let progress : List Eff :=
            if cls.hasProgressSensor then [Eff.updateProgress pid "progress" 0 "Stopped"]
            else []
          (progress.map (fun _ => afterWait) ++ cls.resetSensors.map (fun _ => afterWait),
           progress ++ resetSensorEffs p cls, 1)
    { states := [s, s, s1] ++ taskStates ++ [afterWait] ++ tail.1 ++ [s2]
      final := s2, ret := true
      effs := [Eff.mqttInfo pid "Stopping plugin" "stop",
               Eff.setSwitchState pid "OFF"]
                ++ taskEffs
                ++ [Eff.mqttInfo pid "Plugin cancelled or timed out during shutdown" "stop"]
                ++ tail.2.1
      constructed := tail.2.2 }

/-- The running-maps consistency invariant, decidably: every key of the
running-task map is a key of the running-instance map and vice versa. -/
def invBool (s : MState) : Bool :=
  s.running_tasks.all (fun p => hasKey s.running_instances p) &&
  s.running_instances.all (fun q => s.running_tasks.contains q.1)

/-- The weaker one-sided property that does survive `stop_plugin`'s interior:
every running task still has a live instance. -/
def tasksHaveInstances (s : MState) : Bool :=
  s.running_tasks.all (fun p => hasKey s.running_instances p)

/-! ## The MQTT control-message dispatcher (`core/message_handler.py`) -/

/-- Python `s.startswith(p)`. -/
def pyStartsWith (s p : String) : Bool :=
  p.data.isPrefixOf s.data

/-- Python slicing `s[n:]` (empty when `n` is at or past the end). -/
def pyDrop (s : String) (n : Nat) : String :=
  ⟨s.data.drop n⟩

/-- Python slicing `s[:n]`. -/
def pyTake (s : String) (n : Nat) : String :=
  ⟨s.data.take n⟩

/-- Boolean contiguous-sublist check. -/
def listIsInfixOf (needle : List Char) : List Char → Bool
  | [] => needle.isEmpty
  | c :: t => needle.isPrefixOf (c :: t) || listIsInfixOf needle t

/-- Python substring containment `sub in t`. -/
def pyContains (t sub : String) : Bool :=
  listIsInfixOf sub.data t.data

/-- Split a character list on a separator character, Python
`str.split(sep)` style: `"".split("/") == [""]` and empty segments between
adjacent separators are kept. -/
def splitOnChar (sep : Char) : List Char → List (List Char)
  | [] => [[]]
  | c :: rest =>
      let r := splitOnChar sep rest
      if c = sep then [] :: r
      else
        match r with
        | [] => [[c]]
        | h :: t => (c :: h) :: t

/-- Python `topic.split("/")`. -/
def pySplitSlash (topic : String) : List String :=
  (splitOnChar '/' topic.data).map String.mk

/-- The Python exceptions that can escape the modelled dispatcher code. -/
inductive PyErr where
  | indexError
deriving DecidableEq, Repr

/-- Python `l[-2]` on a list of strings: the second-to-last element, or an
`IndexError` when the list has fewer than two elements. -/
def pyIndexNeg2 (l : List String) : Except PyErr String :=
  if h : 2 ≤ l.length then
    .ok (l.get ⟨l.length - 2, by omega⟩)
  else
    .error .indexError

/-- ASCII whitespace stripped by Python's numeric constructors. -/
def isPyWs (c : Char) : Bool :=
  c = ' ' || c = '\t' || c = '\n' || c = '\r'

/-- Strip leading and trailing whitespace from a character list. -/
def trimWs (l : List Char) : List Char :=
  ((l.dropWhile isPyWs).reverse.dropWhile isPyWs).reverse

/-- Value of a nonempty all-digit character list. -/
def digitsToNat (l : List Char) : Nat :=
  l.foldl (fun a c => a * 10 + (c.toNat - 48)) 0

/-- Parse a nonempty run of decimal digits. -/
def parseDigits (l : List Char) : Option Nat :=
  if l ≠ [] ∧ l.all Char.isDigit then some (digitsToNat l) else none

/-- Python `int(s)`: optional surrounding whitespace, optional sign, a
nonempty digit run (underscore separators and non-decimal bases are not
modelled). -/
def pyParseInt (s : String) : Option Int :=
  match trimWs s.data with
  | '+' :: rest => (parseDigits rest).map Int.ofNat
  | '-' :: rest => (parseDigits rest).map (fun n => -(n : Int))
  | l => (parseDigits l).map Int.ofNat

/-- Parse the exponent part of a float literal (after the `e`):
optional sign, nonempty digit run. -/
def parseExp (l : List Char) : Option Int :=
  match l with
  | '+' :: rest => (parseDigits rest).map Int.ofNat
  | '-' :: rest => (parseDigits rest).map (fun n => -(n : Int))
  | _ => (parseDigits l).map Int.ofNat

/-- Python `float(s)` for decimal literals, kept symbolically as
`(mantissa, exp)` meaning `mantissa * 10 ^ exp`: optional surrounding
whitespace and sign, digits with an optional decimal point (at least one
digit overall), an optional signed exponent (`inf`/`nan` and underscore
separators are not modelled; no claim depends on them). -/
def pyParseFloat (s : String) : Option (Int × Int) :=
  let l := trimWs s.data
  let sign : Int := match l with | '-' :: _ => -1 | _ => 1
  let body := match l with | '+' :: r => r | '-' :: r => r | r => r
  let mant := body.takeWhile (fun c => c ≠ 'e' ∧ c ≠ 'E')
  let rest := body.dropWhile (fun c => c ≠ 'e' ∧ c ≠ 'E')
  let expVal? : Option Int := match rest with
    | [] => some 0
    | _ :: er => parseExp er
  let ip := mant.takeWhile (fun c => c ≠ '.')
  let dr := mant.dropWhile (fun c => c ≠ '.')
  let frac := dr.tail
  match expVal? with
  | none => none
  | some e =>
      if ip.all Char.isDigit ∧ frac.all Char.isDigit ∧ (ip ≠ [] ∨ frac ≠ []) then
        some (sign * (digitsToNat (ip ++ frac) : Int), e - frac.length)
      else none

/-- Render a stored value in log messages, as Python string interpolation
would (float rendering abstracted to scientific notation). -/
def Val.pyStr : Val → String
  | .vInt n => toString n
  | .vFloat m e => toString m ++ "e" ++ toString e
  | .vStr s => s
  | .vBool b => if b then "True" else "False"

/-- Result of one dispatcher call: final manager state, emitted effects,
number of plugin instances constructed. -/
structure PMResult where
  final : MState
  effs : List Eff
  constructed : Nat
deriving DecidableEq, Repr

/-- The plugin-resolution loop of `process_message`: scan the registry in
registration order for the first plugin id that is a string prefix of the
raw topic identifier; the entity id is `raw[len(pid)+1:]` when the raw id is
strictly longer, else the empty string. -/
def resolvePlugin (reg : Registry) (raw : String) : Option (String × String) :=
  match reg with
  | [] => none
  | c :: rest =>
      if pyStartsWith raw c.pid then
        some (c.pid,
          if raw.length > c.pid.length then pyDrop raw (c.pid.length + 1) else "")
      else resolvePlugin rest raw

/-- `MqttMessageHandler._handle_switch_command`. -/
def handle_switch_command (reg : Registry) (s : MState) (coop : Bool)
    (pid eid payload : String) : PMResult :=
  if eid = "" then
    -- main plugin switch
    if payload = "ON" then
      let r := start_plugin reg s pid
      { final := r.final, effs := r.effs, constructed := r.constructed }
    else if payload = "OFF" then
      let r := stop_plugin reg s pid coop
      { final := r.final, effs := r.effs, constructed := r.constructed }
    else
      { final := s, effs := [], constructed := 0 }
  else
    match getPlugin reg pid with
    | none =>
        -- inject(None) raises inside the `try`; caught by the broad `except`
        -- (exact exception text abstracted)
        { final := s
          effs := [Eff.logError ("Error handling switch command for " ++ pid),
                   Eff.mqttError pid "Error handling switch command"]
          constructed := 0 }
    | some cls =>
        let plugin := inject cls
        match cls.switches.find? (fun sw => sw.2.id = eid) with
        | some sw =>
            let attr := "_" ++ sw.1
            if plugin.hasattr attr then
              let v := Val.vBool (payload = "ON")
              { final := store_plugin_config s pid attr v
                effs := [Eff.setSwitchState (pid ++ "_" ++ eid) payload,
                         Eff.mqttInfo pid
                           ("Updated switch " ++ eid ++ " to " ++ payload) "data"]
                constructed := 1 }
            else
              { final := s
                effs := [Eff.logWarning ("Plugin " ++ pid ++ " has no attribute " ++ attr),
                         Eff.mqttWarning pid ("Unknown switch attribute: " ++ attr)]
                constructed := 1 }
        | none =>
            { final := s
              effs := [Eff.mqttWarning pid ("Unknown switch: " ++ eid)]
              constructed := 1 }

/-- The declared-type-directed payload parse inside
`_handle_number_update`: the handler scans the declared number entities for
one whose `id` equals the entity id with `type == "float"`, then applies
`float(payload)` or `int(payload)` accordingly; `none` models the
`ValueError` of a failed parse. -/
def parseNumberPayload (cls : PluginCls) (eid payload : String) : Option Val :=
  if cls.numbers.any (fun nb => nb.2.id = eid && nb.2.isFloat) then
    (pyParseFloat payload).map (fun me => Val.vFloat me.1 me.2)
  else
    (pyParseInt payload).map Val.vInt

/-- `MqttMessageHandler._handle_number_update`. -/
def handle_number_update (reg : Registry) (s : MState)
    (pid eid payload : String) : PMResult :=
  match getPlugin reg pid with
  | none =>
      -- inject(None) raises inside the `try`; caught by the broad `except`
      { final := s
        effs := [Eff.logError ("Error handling number update for " ++ pid),
                 Eff.mqttError pid "Error handling number update"]
        constructed := 0 }
  | some cls =>
      let plugin := inject cls
      match parseNumberPayload cls eid payload with
      | none =>
          -- int()/float() raised ValueError
          { final := s
            effs := [Eff.mqttError pid ("Invalid number value received: " ++ payload)]
            constructed := 1 }
      | some v =>
          let attr := "_" ++ eid
          if plugin.hasattr attr then
            { final := store_plugin_config s pid attr v
              effs := [Eff.mqttInfo pid
                        ("Updated number " ++ eid ++ " to " ++ v.pyStr) "data"]
              constructed := 1 }
          else
            { final := s
              effs := [Eff.logWarning ("Plugin " ++ pid ++ " has no attribute " ++ attr),
                       Eff.mqttWarning pid ("Unknown number entity: " ++ eid)]
              constructed := 1 }

/-- `MqttMessageHandler._handle_text_update`. -/
def handle_text_update (reg : Registry) (s : MState)
    (pid eid payload : String) : PMResult :=
  match getPlugin reg pid with
  | none =>
      { final := s
        effs := [Eff.logError ("Error handling text update for " ++ pid),
                 Eff.mqttError pid "Error handling text update"]
        constructed := 0 }
  | some cls =>
      let plugin := inject cls
      let attr := "_" ++ eid
      if plugin.hasattr attr then
        { final := store_plugin_config s pid attr (Val.vStr payload)
          effs := [Eff.mqttInfo pid
                    ("Updated text " ++ eid ++ " to: " ++ pyTake payload 30 ++ "...") "data"]
          constructed := 1 }
      else
        { final := s
          effs := [Eff.logWarning ("Plugin " ++ pid ++ " has no attribute " ++ attr),
                   Eff.mqttWarning pid ("Unknown text entity: " ++ eid)]
          constructed := 1 }

/-- `MqttMessageHandler._handle_button_command`.  The `asyncio.Event.set()`
calls on the live instance are modelled as setting the
`_user_decision_received` attribute to `True`. -/
def handle_button_command (s : MState) (pid eid : String) : PMResult :=
  let ack := [Eff.logInfo ("Button press received for " ++ pid ++ "_" ++ eid),
              Eff.mqttInfo pid ("Button " ++ eid ++ " pressed") "data"]
  match get_running_plugin_instance s pid with
  | some p =>
      if pid = "ingredient_merger" then
        if eid = "accept_button" ∨ eid = "reject_button" then
          if p.hasattr "_user_accepted" && p.hasattr "_user_decision_received" then
            let p' := ((p.setattr "_user_accepted" (Val.vBool (eid = "accept_button"))).setattr
                        "_user_decision_received" (Val.vBool true))
            { final := { s with running_instances := setKey s.running_instances pid p' }
              effs := ack, constructed := 0 }
          else
            { final := s
              effs := ack ++ [Eff.logWarning "Running plugin instance doesn't have expected attributes"]
              constructed := 0 }
        else
          { final := s, effs := ack, constructed := 0 }
      else if pid = "shopping_list_generator" then
        if eid = "continue_to_next_batch" then
          if p.hasattr "_user_decision_received" then
            let p' := p.setattr "_user_decision_received" (Val.vBool true)
            { final := { s with running_instances := setKey s.running_instances pid p' }
              effs := ack, constructed := 0 }
          else
            { final := s
              effs := ack ++ [Eff.logWarning "Running plugin instance doesn't have expected attributes"]
              constructed := 0 }
        else
          { final := s, effs := ack, constructed := 0 }
      else
        { final := s, effs := ack, constructed := 0 }
  | none =>
      { final := s
        effs := ack ++ [Eff.logWarning ("Button press received for " ++ pid ++ "_"
                          ++ eid ++ ", but plugin is not running")]
        constructed := 0 }

/-- `MqttMessageHandler.process_message`: extract the raw identifier
(`topic.split("/")[-2]`, which raises `IndexError` on topics with fewer than
two segments), strip the `mealiemate_` prefix, resolve the target plugin and
entity, and dispatch on topic substrings. -/
def process_message (reg : Registry) (s : MState) (coop : Bool)
    (topic payload : String) : Except PyErr PMResult :=
  match pyIndexNeg2 (pySplitSlash topic) with
  | .error e => .error e
  | .ok raw0 =>
      let raw := if pyStartsWith raw0 "mealiemate_" then
                   pyDrop raw0 ("mealiemate_".length)
                 else raw0
      match resolvePlugin reg raw with
      | none =>
          .ok { final := s
                effs := [Eff.mqttWarning "mealiemate"
                          ("Unknown plugin ID in MQTT message: " ++ raw)]
                constructed := 0 }
      | some (pid, eid) =>
          -- the redundant `get_plugin` re-check of the source (always succeeds
          -- for an id produced by the resolution loop, but kept faithfully)
          match getPlugin reg pid with
          | none =>
              .ok { final := s
                    effs := [Eff.logError ("Plugin " ++ pid ++ " not found in registry"),
                             Eff.mqttError "mealiemate" ("Plugin " ++ pid ++ " not found")]
                    constructed := 0 }
          | some _ =>
              if pyContains topic "switch" then
                .ok (handle_switch_command reg s coop pid eid payload)
              else if pyContains topic "number" then
                .ok (handle_number_update reg s pid eid payload)
              else if pyContains topic "text" then
                .ok (handle_text_update reg s pid eid payload)
              else if pyContains topic "button" ∧ payload = "PRESS" then
                .ok (handle_button_command s pid eid)
              else
                .ok { final := s
                      effs := [Eff.mqttWarning pid ("Unknown command: " ++ payload)]
                      constructed := 0 }

/-! ## Concrete fixtures used by witnesses and counterexamples -/

/-- A concrete plugin class modelled on the Neapolitan pizza plugin: one
declared int-typed number entity backed by a `_total_time` attribute, one
declared sensor to reset, a progress sensor. -/
def pizzaCls : PluginCls :=
  { pid := "pizza"
    initAttrs := [("_total_time", Val.vInt 24)]
    numbers := [("total_time", { id := "total_time", isFloat := false })]
    switches := []
    hasProgressSensor := true
    resetSensors := ["feedback"] }

/-- A registry holding just the pizza plugin. -/
def pizzaReg : Registry := [pizzaCls]

/-- The manager state after starting `"pizza"` from the empty state. -/
def sPizzaRunning : MState := (start_plugin pizzaReg MState.empty "pizza").final

/-! ## Association-list lemmas -/

theorem hasKey_delKey_self {α : Type} (m : List (String × α)) (k : String) :
    hasKey (delKey m k) k = false := by
  induction m with
  | nil => rfl
  | cons p rest ih =>
      obtain ⟨a, v⟩ := p
      by_cases h : a = k
      · simpa [delKey, h] using ih
      · simpa [delKey, h, hasKey] using ih

theorem hasKey_delKey_of_ne {α : Type} {k' k : String} (h : k' ≠ k)
    (m : List (String × α)) : hasKey (delKey m k) k' = hasKey m k' := by
  induction m with
  | nil => rfl
  | cons p rest ih =>
      obtain ⟨a, v⟩ := p
      by_cases ha : a = k
      · subst ha
        have hkk' : ¬ a = k' := fun hh => h hh.symm
        simpa [delKey, hasKey, hkk'] using ih
      · by_cases hq : a = k'
        · subst hq
          simp [delKey, hasKey, ha]
        · simpa [delKey, hasKey, ha, hq] using ih

theorem mem_delKey {α : Type} {x : String × α} {m : List (String × α)}
    {k : String} : x ∈ delKey m k ↔ x ∈ m ∧ x.1 ≠ k := by
  induction m with
  | nil => simp [delKey]
  | cons p rest ih =>
      obtain ⟨a, v⟩ := p
      by_cases ha : a = k
      · have hd : delKey ((a, v) :: rest) k = delKey rest k := by simp [delKey, ha]
        rw [hd, ih]
        constructor
        · exact fun h => ⟨List.mem_cons_of_mem _ h.1, h.2⟩
        · rintro ⟨hx, hne⟩
          rcases List.mem_cons.mp hx with h1 | h1
          · exact absurd (by rw [h1]; exact ha) hne
          · exact ⟨h1, hne⟩
      · have hd : delKey ((a, v) :: rest) k = (a, v) :: delKey rest k := by
          simp [delKey, ha]
        rw [hd]
        constructor
        · intro hx
          rcases List.mem_cons.mp hx with h1 | h1
          · exact ⟨List.mem_cons.mpr (Or.inl h1), by rw [h1]; exact ha⟩
          · obtain ⟨h2, h3⟩ := ih.mp h1
            exact ⟨List.mem_cons_of_mem _ h2, h3⟩
        · rintro ⟨hx, hne⟩
          rcases List.mem_cons.mp hx with h1 | h1
          · exact List.mem_cons.mpr (Or.inl h1)
          · exact List.mem_cons_of_mem _ (ih.mpr ⟨h1, hne⟩)

theorem hasKey_setKey_self {α : Type} (m : List (String × α)) (k : String)
    (v : α) : hasKey (setKey m k v) k = true := by
  induction m with
  | nil => simp [setKey, hasKey]
  | cons p rest ih =>
      obtain ⟨a, w⟩ := p
      by_cases h : a = k
      · simp [setKey, h, hasKey]
      · simpa [setKey, h, hasKey] using ih

theorem getKey_setKey_self {α : Type} (m : List (String × α)) (k : String)
    (v : α) : getKey (setKey m k v) k = some v := by
  induction m with
  | nil => simp [setKey, getKey]
  | cons p rest ih =>
      obtain ⟨a, w⟩ := p
      by_cases h : a = k
      · simp [setKey, h, getKey]
      · simpa [setKey, h, getKey] using ih

theorem setKey_setKey_self {α : Type} (m : List (String × α)) (k : String)
    (v w : α) : setKey (setKey m k v) k w = setKey m k w := by
  induction m with
  | nil => simp [setKey]
  | cons p rest ih =>
      obtain ⟨a, u⟩ := p
      by_cases h : a = k
      · simp [setKey, h]
      · simp [setKey, h, ih]

theorem hasKey_setKey {α : Type} (m : List (String × α)) (k k' : String)
    (v : α) : hasKey (setKey m k v) k' = (decide (k' = k) || hasKey m k') := by
  induction m with
  | nil =>
      by_cases h : k' = k
      · subst h; simp [setKey, hasKey]
      · have hkk' : ¬ k = k' := fun hh => h hh.symm
        simp [setKey, hasKey, h, hkk']
  | cons p rest ih =>
      obtain ⟨a, w⟩ := p
      by_cases ha : a = k
      · subst ha
        by_cases hq : k' = a
        · subst hq; simp [setKey, hasKey]
        · have haq : ¬ a = k' := fun hh => hq hh.symm
          simp [setKey, hasKey, hq, haq]
      · by_cases hq : a = k'
        · subst hq
          simp [setKey, hasKey, ha]
        · simpa [setKey, hasKey, ha, hq] using ih

theorem mem_setKey {α : Type} {x : String × α} {m : List (String × α)}
    {k : String} {v : α} (h : x ∈ setKey m k v) : x = (k, v) ∨ x ∈ m := by
  induction m with
  | nil => simpa [setKey] using h
  | cons p rest ih =>
      obtain ⟨a, w⟩ := p
      by_cases ha : a = k
      · simp only [setKey, if_pos ha, List.mem_cons] at h
        rcases h with h | h
        · exact Or.inl h
        · exact Or.inr (List.mem_cons_of_mem _ h)
      · simp only [setKey, if_neg ha, List.mem_cons] at h
        rcases h with h | h
        · exact Or.inr (by simp [h])
        · rcases ih h with h' | h'
          · exact Or.inl h'
          · exact Or.inr (List.mem_cons_of_mem _ h')

theorem contains_iff_mem {l : List String} {a : String} :
    l.contains a = true ↔ a ∈ l := by
  simp [List.contains, List.elem_iff]

theorem mem_delItem {t k : String} {l : List String} :
    t ∈ delItem l k ↔ t ∈ l ∧ t ≠ k := by
  induction l with
  | nil => simp [delItem]
  | cons a rest ih =>
      by_cases ha : a = k
      · have hd : delItem (a :: rest) k = delItem rest k := by simp [delItem, ha]
        rw [hd, ih]
        constructor
        · exact fun h => ⟨List.mem_cons_of_mem _ h.1, h.2⟩
        · rintro ⟨hx, hne⟩
          rcases List.mem_cons.mp hx with h1 | h1
          · exact absurd (by rw [h1]; exact ha) hne
          · exact ⟨h1, hne⟩
      · have hd : delItem (a :: rest) k = a :: delItem rest k := by
          simp [delItem, ha]
        rw [hd]
        constructor
        · intro hx
          rcases List.mem_cons.mp hx with h1 | h1
          · exact ⟨List.mem_cons.mpr (Or.inl h1), by rw [h1]; exact ha⟩
          · obtain ⟨h2, h3⟩ := ih.mp h1
            exact ⟨List.mem_cons_of_mem _ h2, h3⟩
        · rintro ⟨hx, hne⟩
          rcases List.mem_cons.mp hx with h1 | h1
          · exact List.mem_cons.mpr (Or.inl h1)
          · exact List.mem_cons_of_mem _ (ih.mpr ⟨h1, hne⟩)

theorem contains_delItem_self (l : List String) (k : String) :
    (delItem l k).contains k = false := by
  by_contra h
  have hm : k ∈ delItem l k := contains_iff_mem.mp (by simpa using h)
  exact (mem_delItem.mp hm).2 rfl

theorem not_mem_delItem_self (l : List String) (k : String) :
    k ∉ delItem l k :=
  fun hm => (mem_delItem.mp hm).2 rfl

/-! ## Invariant-preservation lemmas -/

theorem invBool_iff {s : MState} :
    invBool s = true ↔
      ((∀ t ∈ s.running_tasks, hasKey s.running_instances t = true) ∧
       (∀ q ∈ s.running_instances, q.1 ∈ s.running_tasks)) := by
  simp [invBool, List.all_eq_true]

theorem tasksHaveInstances_iff {s : MState} :
    tasksHaveInstances s = true ↔
      ∀ t ∈ s.running_tasks, hasKey s.running_instances t = true := by
  simp [tasksHaveInstances, List.all_eq_true]

theorem thi_of_inv {s : MState} (h : invBool s = true) :
    tasksHaveInstances s = true :=
  tasksHaveInstances_iff.mpr (invBool_iff.mp h).1

theorem inv_cleanup {s : MState} (pid : String) (h : invBool s = true) :
    invBool { s with running_tasks := delItem s.running_tasks pid,
                     running_instances := delKey s.running_instances pid } = true := by
  rw [invBool_iff] at h ⊢
  obtain ⟨h1, h2⟩ := h
  constructor
  · intro t ht
    obtain ⟨htm, htne⟩ := mem_delItem.mp ht
    rw [hasKey_delKey_of_ne htne]
    exact h1 t htm
  · intro q hq
    obtain ⟨hqm, hqne⟩ := mem_delKey.mp hq
    exact mem_delItem.mpr ⟨h2 q hqm, hqne⟩

theorem inv_insert {s : MState} (pid : String) (v : Inst)
    (h : invBool s = true) :
    invBool { s with running_tasks := s.running_tasks ++ [pid],
                     running_instances := setKey s.running_instances pid v } = true := by
  rw [invBool_iff] at h ⊢
  obtain ⟨h1, h2⟩ := h
  constructor
  · intro t ht
    rcases List.mem_append.mp ht with ht | ht
    · rw [hasKey_setKey]
      simp [h1 t ht]
    · rw [List.mem_singleton.mp ht, hasKey_setKey]
      simp
  · intro q hq
    rcases mem_setKey hq with hq | hq
    · rw [hq]
      simp
    · exact List.mem_append.mpr (Or.inl (h2 q hq))

theorem thi_stop_mid {s : MState} (pid : String) (h : invBool s = true) :
    tasksHaveInstances { s with running_tasks := delItem s.running_tasks pid } = true := by
  rw [tasksHaveInstances_iff]
  intro t ht
  exact (invBool_iff.mp h).1 t (mem_delItem.mp ht).1

theorem thi_stop_cleanup {s : MState} (pid : String) (h : invBool s = true) :
    tasksHaveInstances
      { s with running_tasks := delItem s.running_tasks pid,
               running_instances := delKey s.running_instances pid } = true :=
  thi_of_inv (inv_cleanup pid h)

/-! ## Claim theorems -/

/-- C1 counterexample: the consistency invariant does NOT hold at every
observable point.  Starting `"pizza"` and then stopping it, the suspension
point right after `stop_plugin` pops the task handle (the `await
asyncio.wait_for(task, 1)` at `plugin_manager.py:123`, the third observable
state of the stop trace) sees `"pizza"` still in the running-instance map but
no longer in the running-task map, so the claimed biconditional fails there. -/
theorem C1_counterexample :
    ((stop_plugin pizzaReg sPizzaRunning "pizza" true).states.all
        (fun st => invBool st)) = false ∧
    invBool ((stop_plugin pizzaReg sPizzaRunning "pizza" true).states.getD 2
        MState.empty) = false ∧
    is_plugin_running ((stop_plugin pizzaReg sPizzaRunning "pizza" true).states.getD 2
        MState.empty) "pizza" = false ∧
    hasKey ((stop_plugin pizzaReg sPizzaRunning "pizza" true).states.getD 2
        MState.empty).running_instances "pizza" = true := by
  decide

/-- C1 amended: starting from any state satisfying the running-maps
invariant, the invariant holds at every observable point of `start_plugin`
and of the supervised `_execute_plugin` wrapper (for all three outcomes,
including immediately after an injected exception) and again when
`stop_plugin` returns; at the suspension points in the interior of
`stop_plugin` only the weaker one-sided property holds — every running task
still has a live instance — because the task handle is removed before the
instance. -/
theorem C1_running_maps_invariant_amended (reg : Registry) (s : MState)
    (pid : String) (coop : Bool) (oc : ExecOutcome)
    (h : invBool s = true) :
    (∀ st ∈ (start_plugin reg s pid).states, invBool st = true) ∧
    invBool (start_plugin reg s pid).final = true ∧
    (∀ st ∈ (execute_plugin s pid oc).states, invBool st = true) ∧
    invBool (execute_plugin s pid oc).final = true ∧
    invBool (stop_plugin reg s pid coop).final = true ∧
    (∀ st ∈ (stop_plugin reg s pid coop).states, tasksHaveInstances st = true) := by
  refine ⟨?_, ?_, ?_, ?_, ?_, ?_⟩
  · -- start_plugin trace
    intro st hst
    by_cases hrun : pid ∈ s.running_tasks
    · simp [start_plugin, hrun] at hst
      rw [hst]; exact h
    · cases hcls : getPlugin reg pid with
      | none =>
          simp [start_plugin, hrun, hcls] at hst
          rw [hst]; exact h
      | some cls =>
          simp [start_plugin, hrun, hcls] at hst
          rcases hst with rfl | ⟨-, rfl⟩ | rfl
          · exact h
          · exact h
          · exact inv_insert pid (apply_config_to_plugin s.plugin_configs (inject cls)) h
  · -- start_plugin final
    by_cases hrun : pid ∈ s.running_tasks
    · simpa [start_plugin, hrun] using h
    · cases hcls : getPlugin reg pid with
      | none => simpa [start_plugin, hrun, hcls] using h
      | some cls =>
          simpa [start_plugin, hrun, hcls] using
            inv_insert pid (apply_config_to_plugin s.plugin_configs (inject cls)) h
  · -- execute_plugin trace: every suspension point observes the pre-cleanup
    -- state, including the ones right after a raised exception
    intro st hst
    cases oc <;> simp [execute_plugin] at hst <;> rw [hst] <;> exact h
  · -- execute_plugin final
    cases oc <;> exact inv_cleanup pid h
  · -- stop_plugin final
    by_cases hrun : pid ∈ s.running_tasks
    · simpa [stop_plugin, hrun] using inv_cleanup pid h
    · simpa [stop_plugin, hrun] using h
  · -- stop_plugin trace: the one-sided property at every suspension point
    intro st hst
    by_cases hrun : pid ∈ s.running_tasks
    · have key : st = s ∨
          st = { s with running_tasks := delItem s.running_tasks pid } ∨
          st = { s with running_tasks := delItem s.running_tasks pid,
                        running_instances := delKey s.running_instances pid } := by
        cases hcls : getPlugin reg pid <;> cases coop <;>
          simp [stop_plugin, hrun, hcls] at hst <;> tauto
      rcases key with rfl | rfl | rfl
      · exact thi_of_inv h
      · exact thi_stop_mid pid h
      · exact thi_stop_cleanup pid h
    · simp [stop_plugin, hrun] at hst
      rw [hst]; exact thi_of_inv h

/-- Witness for C1 amended at a concrete input: the running-`"pizza"` state
satisfies the invariant, so all the amended conclusions hold for it. -/
theorem C1_witness :
    invBool sPizzaRunning = true ∧
    ((∀ st ∈ (start_plugin pizzaReg sPizzaRunning "pizza").states, invBool st = true) ∧
     invBool (start_plugin pizzaReg sPizzaRunning "pizza").final = true ∧
     (∀ st ∈ (execute_plugin sPizzaRunning "pizza" (.error "boom")).states, invBool st = true) ∧
     invBool (execute_plugin sPizzaRunning "pizza" (.error "boom")).final = true ∧
     invBool (stop_plugin pizzaReg sPizzaRunning "pizza" false).final = true ∧
     (∀ st ∈ (stop_plugin pizzaReg sPizzaRunning "pizza" false).states,
        tasksHaveInstances st = true)) :=
  ⟨by decide,
   C1_running_maps_invariant_amended pizzaReg sPizzaRunning "pizza" false
     (.error "boom") (by decide)⟩

/-- C2: when a plugin is already running, a second `start_plugin` call for the
same id returns false, constructs no second plugin instance, and leaves the
whole manager state (both running maps and the config map) unchanged. -/
theorem C2_start_already_running_noop (reg : Registry) (s : MState)
    (pid : String) (h : s.running_tasks.contains pid = true) :
    (start_plugin reg s pid).ret = false ∧
    (start_plugin reg s pid).constructed = 0 ∧
    (start_plugin reg s pid).final = s := by
  have h' : pid ∈ s.running_tasks := contains_iff_mem.mp h
  simp [start_plugin, h']

/-- Witness for C2 at a concrete input: `"pizza"` is running in
`sPizzaRunning`, and the second start is the stated no-op. -/
theorem C2_witness :
    sPizzaRunning.running_tasks.contains "pizza" = true ∧
    ((start_plugin pizzaReg sPizzaRunning "pizza").ret = false ∧
     (start_plugin pizzaReg sPizzaRunning "pizza").constructed = 0 ∧
     (start_plugin pizzaReg sPizzaRunning "pizza").final = sPizzaRunning) :=
  ⟨by decide,
   C2_start_already_running_noop pizzaReg sPizzaRunning "pizza" (by decide)⟩

/-- C3: when `execute()` raises a non-cancellation exception, the supervised
wrapper reports an error to the control surface and sets the plugin's switch
OFF, and afterwards the plugin id is absent from both running maps; the same
absence holds after normal completion and after cancellation. -/
theorem C3_execute_error_cleanup (s : MState) (pid msg : String) :
    (Eff.mqttError pid ("Error: " ++ msg)) ∈ (execute_plugin s pid (.error msg)).effs ∧
    (Eff.setSwitchState pid "OFF") ∈ (execute_plugin s pid (.error msg)).effs ∧
    ∀ oc : ExecOutcome,
      is_plugin_running (execute_plugin s pid oc).final pid = false ∧
      hasKey (execute_plugin s pid oc).final.running_instances pid = false := by
  refine ⟨by simp [execute_plugin], by simp [execute_plugin], ?_⟩
  intro oc
  cases oc <;>
    exact ⟨by simp [execute_plugin, is_plugin_running, not_mem_delItem_self],
           by simp [execute_plugin, hasKey_delKey_self]⟩

/-- C4: `stop_plugin` on a running plugin returns true whether or not the
task cooperates with cancellation within the shutdown timeout, and afterwards
the plugin id is absent from both running maps; on a plugin that is not
running it returns false. -/
theorem C4_stop_plugin_graceful (reg : Registry) (s : MState) (pid : String)
    (coop : Bool) :
    (s.running_tasks.contains pid = true →
      (stop_plugin reg s pid coop).ret = true ∧
      is_plugin_running (stop_plugin reg s pid coop).final pid = false ∧
      hasKey (stop_plugin reg s pid coop).final.running_instances pid = false) ∧
    (s.running_tasks.contains pid = false →
      (stop_plugin reg s pid coop).ret = false ∧
      (stop_plugin reg s pid coop).final = s) := by
  constructor
  · intro h
    have h' : pid ∈ s.running_tasks := contains_iff_mem.mp h
    refine ⟨?_, ?_, ?_⟩ <;>
      simp [stop_plugin, h', is_plugin_running, not_mem_delItem_self,
            hasKey_delKey_self]
  · intro h
    have h' : ¬ pid ∈ s.running_tasks := by simpa using h
    constructor <;> simp [stop_plugin, h']

/-- Witness for C4 at concrete inputs: stopping the running `"pizza"` plugin
with a task that ignores cancellation, and stopping it when nothing runs. -/
theorem C4_witness :
    ((stop_plugin pizzaReg sPizzaRunning "pizza" false).ret = true ∧
     is_plugin_running (stop_plugin pizzaReg sPizzaRunning "pizza" false).final "pizza" = false ∧
     hasKey (stop_plugin pizzaReg sPizzaRunning "pizza" false).final.running_instances "pizza" = false) ∧
    ((stop_plugin pizzaReg MState.empty "pizza" false).ret = false ∧
     (stop_plugin pizzaReg MState.empty "pizza" false).final = MState.empty) :=
  ⟨(C4_stop_plugin_graceful pizzaReg sPizzaRunning "pizza" false).1 (by decide),
   (C4_stop_plugin_graceful pizzaReg MState.empty "pizza" false).2 (by decide)⟩

/-- C5 counterexample: `process_message` can raise: for a topic with fewer
than two `/`-separated segments, `topic.split("/")[-2]` raises `IndexError`
before any validation or handler runs, so the dispatcher does propagate an
exception to its caller. -/
theorem C5_counterexample :
    process_message pizzaReg MState.empty false "x" "ON"
      = Except.error PyErr.indexError := by
  rfl

/-- C5 amended: for every topic with at least two `/`-separated segments,
`process_message` returns normally on every payload — all downstream
branches end in a handler result, a warning, or an error report, and parse
and lookup failures are caught inside the handlers. -/
theorem C5_process_message_no_raise_amended (reg : Registry) (s : MState)
    (coop : Bool) (topic payload : String)
    (h : 2 ≤ (pySplitSlash topic).length) :
    ∃ r, process_message reg s coop topic payload = Except.ok r := by
  have hok : pyIndexNeg2 (pySplitSlash topic) =
      Except.ok ((pySplitSlash topic).get
        ⟨(pySplitSlash topic).length - 2, by omega⟩) := by
    simp [pyIndexNeg2, h]
  unfold process_message
  rw [hok]
  dsimp only
  repeat' split
  all_goals exact ⟨_, rfl⟩

/-- Witness for C5 amended at a concrete input: a well-formed switch topic. -/
theorem C5_witness :
    2 ≤ (pySplitSlash "homeassistant/switch/mealiemate_pizza/set").length ∧
    ∃ r, process_message pizzaReg MState.empty false
          "homeassistant/switch/mealiemate_pizza/set" "ON" = Except.ok r :=
  ⟨by decide,
   C5_process_message_no_raise_amended pizzaReg MState.empty false
     "homeassistant/switch/mealiemate_pizza/set" "ON" (by decide)⟩

/-- C6 counterexample: a parseable payload on a number topic of a registered
plugin is NOT always stored: when the freshly constructed instance lacks the
conventional `_<entity_id>` attribute, the handler only warns and the
persisted config map is unchanged, refuting the claim's unconditional
"a parseable payload is stored via store_plugin_config". -/
theorem C6_counterexample :
    pyParseInt "5" = some 5 ∧
    process_message pizzaReg MState.empty false
        "homeassistant/number/mealiemate_pizza_bogus/set" "5"
      = Except.ok
          { final := MState.empty
            effs := [Eff.logWarning "Plugin pizza has no attribute _bogus",
                     Eff.mqttWarning "pizza" "Unknown number entity: bogus"]
            constructed := 1 } :=
  ⟨rfl, rfl⟩

/-- C6 amended: on a number update for a registered plugin, a payload that
does not parse as the declared numeric type yields an error report and
leaves the whole state (in particular the persisted config map) unchanged;
a parseable payload is stored via `store_plugin_config` provided the
instance carries the conventional `_<entity_id>` attribute, and otherwise
only a warning is reported and nothing is stored. -/
theorem C6_number_update_amended (reg : Registry) (s : MState)
    (pid eid payload : String) (cls : PluginCls)
    (hcls : getPlugin reg pid = some cls) :
    (parseNumberPayload cls eid payload = none →
       (handle_number_update reg s pid eid payload).final = s ∧
       Eff.mqttError pid ("Invalid number value received: " ++ payload)
         ∈ (handle_number_update reg s pid eid payload).effs) ∧
    (∀ v : Val, parseNumberPayload cls eid payload = some v →
       ((inject cls).hasattr ("_" ++ eid) = true →
          (handle_number_update reg s pid eid payload).final
            = store_plugin_config s pid ("_" ++ eid) v) ∧
       ((inject cls).hasattr ("_" ++ eid) = false →
          (handle_number_update reg s pid eid payload).final = s ∧
          Eff.mqttWarning pid ("Unknown number entity: " ++ eid)
            ∈ (handle_number_update reg s pid eid payload).effs)) := by
  constructor
  · intro hp
    constructor <;> simp [handle_number_update, hcls, hp]
  · intro v hp
    constructor
    · intro hattr
      simp [handle_number_update, hcls, hp, hattr]
    · intro hattr
      constructor <;> simp [handle_number_update, hcls, hp, hattr]

/-- Witness for C6 amended at concrete inputs: the non-numeric payload
`"abc"` for the pizza plugin's `total_time` number entity. -/
theorem C6_witness :
    getPlugin pizzaReg "pizza" = some pizzaCls ∧
    parseNumberPayload pizzaCls "total_time" "abc" = none ∧
    (handle_number_update pizzaReg MState.empty "pizza" "total_time" "abc").final
      = MState.empty ∧
    Eff.mqttError "pizza" ("Invalid number value received: " ++ "abc")
      ∈ (handle_number_update pizzaReg MState.empty "pizza" "total_time" "abc").effs :=
  ⟨by decide, by decide,
   ((C6_number_update_amended pizzaReg MState.empty "pizza" "total_time" "abc"
       pizzaCls (by decide)).1 (by decide)).1,
   ((C6_number_update_amended pizzaReg MState.empty "pizza" "total_time" "abc"
       pizzaCls (by decide)).1 (by decide)).2⟩

/-- C7: routing is a pure function of the registry and the topic: the match
is the FIRST registered plugin id (registration order) that string-prefixes
the raw identifier; the entity id is the remainder after the matched id and
its one-character separator (so `pid ++ "_" ++ e` resolves to `e`, and a raw
identifier equal to the plugin id resolves to the empty entity id); an empty
entity id is dispatched as the plugin's main switch (`start_plugin` on ON,
`stop_plugin` on OFF). -/
theorem C7_routing_first_prefix_wins (pre post : List PluginCls)
    (c : PluginCls) (raw : String)
    (hpre : ∀ c' ∈ pre, pyStartsWith raw c'.pid = false)
    (hc : pyStartsWith raw c.pid = true) :
    resolvePlugin (pre ++ c :: post) raw =
      some (c.pid, if raw.length > c.pid.length
                   then pyDrop raw (c.pid.length + 1) else "") ∧
    (∀ e : String, raw = c.pid ++ "_" ++ e →
        resolvePlugin (pre ++ c :: post) raw = some (c.pid, e)) ∧
    (raw = c.pid → resolvePlugin (pre ++ c :: post) raw = some (c.pid, "")) ∧
    ∀ (reg : Registry) (s : MState) (coop : Bool) (pid : String),
      (handle_switch_command reg s coop pid "" "ON").final
          = (start_plugin reg s pid).final ∧
      (handle_switch_command reg s coop pid "" "OFF").final
          = (stop_plugin reg s pid coop).final := by
  have hmain : resolvePlugin (pre ++ c :: post) raw =
      some (c.pid, if raw.length > c.pid.length
                   then pyDrop raw (c.pid.length + 1) else "") := by
    revert hpre
    induction pre with
    | nil => intro _; simp [resolvePlugin, hc]
    | cons c' rest ih =>
        intro hpre
        have h1 := hpre c' (List.mem_cons_self _ _)
        have ih' := ih (fun x hx => hpre x (List.mem_cons_of_mem _ hx))
        simpa [resolvePlugin, h1] using ih'
  refine ⟨hmain, ?_, ?_, ?_⟩
  · intro e he
    rw [hmain]
    have hgt : raw.length > c.pid.length := by
      rw [he, String.length_append, String.length_append]
      have h1 : ("_" : String).length = 1 := rfl
      omega
    have hdrop : pyDrop raw (c.pid.length + 1) = e := by
      apply String.ext
      show raw.data.drop (c.pid.length + 1) = e.data
      have hdata : raw.data = (c.pid.data ++ ['_']) ++ e.data := by
        rw [he, String.data_append, String.data_append]
      rw [hdata]
      have hlen : (c.pid.data ++ ['_']).length = c.pid.length + 1 := by
        rw [List.length_append]; rfl
      rw [← hlen, List.drop_left]
    rw [if_pos hgt, hdrop]
  · intro he
    rw [hmain, if_neg (by rw [he]; omega)]
  · intro reg s coop pid
    exact ⟨by simp [handle_switch_command], by simp [handle_switch_command]⟩

/-- Witness for C7 at a concrete input: the raw identifier
`"pizza_total_time"` matched against the one-plugin registry. -/
theorem C7_witness :
    resolvePlugin [pizzaCls] "pizza_total_time" = some ("pizza", "total_time") := by
  exact (C7_routing_first_prefix_wins [] [] pizzaCls "pizza_total_time"
      (by intro c' hc'; cases hc') (by decide)).2.1 "total_time" (by decide)

/-- C8: storing the same `(plugin_id, attribute, value)` twice leaves the
persisted config map identical to storing it once, and replaying a persisted
config onto two separately constructed — hence attribute-identical —
instances of the same plugin yields identical values for every attribute. -/
theorem C8_config_replay_idempotent (s : MState) (pid attr : String) (v : Val)
    (cfgs : List (String × List (String × Val))) (p q : Inst)
    (hid : p.id = q.id) (hattrs : p.attrs = q.attrs) :
    (store_plugin_config (store_plugin_config s pid attr v) pid attr v).plugin_configs
      = (store_plugin_config s pid attr v).plugin_configs ∧
    ∀ a : String, getKey (apply_config_to_plugin cfgs p).attrs a
      = getKey (apply_config_to_plugin cfgs q).attrs a := by
  constructor
  · simp only [store_plugin_config, hasKey_setKey_self, if_true,
      getKey_setKey_self, Option.getD_some, setKey_setKey_self]
  · have hpq : p = q := by
      cases p; cases q
      simp_all
    subst hpq
    intro a
    rfl

/-- Witness for C8 at concrete inputs: storing the pizza plugin's
`_total_time` twice, and replaying a config onto two fresh pizza instances. -/
theorem C8_witness :
    (store_plugin_config (store_plugin_config MState.empty "pizza" "_total_time"
        (Val.vInt 30)) "pizza" "_total_time" (Val.vInt 30)).plugin_configs
      = (store_plugin_config MState.empty "pizza" "_total_time"
          (Val.vInt 30)).plugin_configs ∧
    ∀ a : String,
      getKey (apply_config_to_plugin [("pizza", [("_total_time", Val.vInt 30)])]
        (inject pizzaCls)).attrs a
      = getKey (apply_config_to_plugin [("pizza", [("_total_time", Val.vInt 30)])]
          (inject pizzaCls)).attrs a :=
  C8_config_replay_idempotent MState.empty "pizza" "_total_time" (Val.vInt 30)
    [("pizza", [("_total_time", Val.vInt 30)])] (inject pizzaCls)
    (inject pizzaCls) rfl rfl

/-- C9 counterexample: a button press against a registered plugin with no
running instance is dropped without state change, but it is NOT free of side
effects other than the warning: the handler unconditionally publishes a
`"Button ... pressed"` info acknowledgement to the control surface (and a log
line) before discovering that the plugin is not running. -/
theorem C9_counterexample :
    process_message pizzaReg MState.empty false
        "homeassistant/button/mealiemate_pizza_go/command" "PRESS"
      = Except.ok
          { final := MState.empty
            effs := [Eff.logInfo "Button press received for pizza_go",
                     Eff.mqttInfo "pizza" "Button go pressed" "data",
                     Eff.logWarning
                       "Button press received for pizza_go, but plugin is not running"]
            constructed := 0 } ∧
    Eff.mqttInfo "pizza" "Button go pressed" "data"
      ∈ (handle_button_command MState.empty "pizza" "go").effs :=
  ⟨rfl, by decide⟩

/-- C9 amended: a button press targeting a registered plugin with no running
instance raises nothing and changes no plugin state or persisted
configuration; its only side effects are the unconditional button-press
acknowledgement (a log line and an info report to the control surface)
followed by the not-running warning in the log. -/
theorem C9_button_not_running_amended (s : MState) (pid eid : String)
    (h : get_running_plugin_instance s pid = none) :
    handle_button_command s pid eid =
      { final := s
        effs := [Eff.logInfo ("Button press received for " ++ pid ++ "_" ++ eid),
                 Eff.mqttInfo pid ("Button " ++ eid ++ " pressed") "data",
                 Eff.logWarning ("Button press received for " ++ pid ++ "_" ++ eid
                   ++ ", but plugin is not running")]
        constructed := 0 } := by
  simp [handle_button_command, h]

/-- Witness for C9 amended at a concrete input: a `"go"` button press for
the pizza plugin while nothing is running. -/
theorem C9_witness :
    get_running_plugin_instance MState.empty "pizza" = none ∧
    handle_button_command MState.empty "pizza" "go" =
      { final := MState.empty
        effs := [Eff.logInfo "Button press received for pizza_go",
                 Eff.mqttInfo "pizza" "Button go pressed" "data",
                 Eff.logWarning "Button press received for pizza_go, but plugin is not running"]
        constructed := 0 } :=
  ⟨rfl, by
    have h := C9_button_not_running_amended MState.empty "pizza" "go" rfl
    simpa using h⟩

/-- C10: the dispatcher skips exactly one character after the matched plugin
id without checking that it is the underscore separator: whenever the raw
identifier is the plugin id followed by exactly one arbitrary character, the
entity id resolves to the empty string, and a switch-topic message with that
identifier is dispatched as the plugin's main switch (`start_plugin` on
payload ON, `stop_plugin` on payload OFF). -/
theorem C10_one_char_skip_main_switch (post : List PluginCls) (c : PluginCls)
    (raw : String) (s : MState) (coop : Bool)
    (h1 : pyStartsWith raw c.pid = true)
    (h2 : raw.length = c.pid.length + 1) :
    resolvePlugin (c :: post) raw = some (c.pid, "") ∧
    (handle_switch_command (c :: post) s coop c.pid "" "ON").final
        = (start_plugin (c :: post) s c.pid).final ∧
    (handle_switch_command (c :: post) s coop c.pid "" "OFF").final
        = (stop_plugin (c :: post) s c.pid coop).final := by
  refine ⟨?_, by simp [handle_switch_command], by simp [handle_switch_command]⟩
  have hgt : raw.length > c.pid.length := by omega
  have hdrop : pyDrop raw (c.pid.length + 1) = "" := by
    apply String.ext
    show raw.data.drop (c.pid.length + 1) = ("" : String).data
    have hl : raw.data.length = c.pid.length + 1 := h2
    have hnil : raw.data.drop (c.pid.length + 1) = [] :=
      List.drop_eq_nil_of_le (by omega)
    rw [hnil]
  simp [resolvePlugin, h1, hgt, hdrop]

/-- Witness for C10 at a concrete input: the raw identifier `"pizzaX"`
(plugin id `"pizza"` followed by the non-underscore character `X`) resolves
to the pizza plugin's main switch. -/
theorem C10_witness :
    resolvePlugin [pizzaCls] "pizzaX" = some ("pizza", "") ∧
    (handle_switch_command [pizzaCls] MState.empty false "pizza" "" "ON").final
        = (start_plugin [pizzaCls] MState.empty "pizza").final := by
  have h := C10_one_char_skip_main_switch [] pizzaCls "pizzaX" MState.empty false
    (by decide) (by decide)
  exact ⟨h.1, h.2.1⟩

end MealieMate
